import Mathlib

/-!
Verification of the cavity-QED simulation scripts (Jaynes-Cummings model).

The repository consists of four Python scripts (`jaynes_cummings.py`,
`2d_3d_wigner_function.py`, `blochsphere_function.py`,
`power_spectrum_vs_coupling.py`) that build a Hamiltonian and a list of
collapse operators on the composite Hilbert space (cavity ⊗ atom), hand
them to the external QuTiP master-equation solver, and render the result.

This file shallowly embeds the orchestration logic of those scripts:
* the evolution time grids (`np.linspace`) over ℚ,
* the nearest-sample snapshot lookup (`np.argmin(np.abs(t_list - t))`),
* the operator constructions (tensor products of `destroy`, identities,
  `sigmaz`) as matrices over an abstract field `K`, with `np.sqrt` and
  `np.pi` passed in as explicit external parameters `sq` and `npPi`
  (the scripts treat both as black-box library facilities),
* the collapse-operator lists and Hamiltonians of each script,
* the subplot/axes handling of the rendering loops (including the squeeze
  semantics of `plt.subplots` and the `axes = [axes]` normalization),
* the effect traces (figures shown, no files written) and return values.
-/

/-- Embedding of `np.linspace(a, b, n)`: `n` evenly spaced samples from `a`
to `b` inclusive; for `n = 1` numpy returns `[a]`. -/
def linspace (a b : ℚ) (n : ℕ) : List ℚ :=
  (List.range n).map fun i : ℕ =>
    if n = 1 then a else a + (b - a) * (i : ℚ) / ((n : ℚ) - 1)

/-- Embedding of `np.argmin(np.abs(ts - t))` as used by the snapshot lookups
(`idx = np.argmin(np.abs(t_list - t))`): the first index of a list entry at
minimal absolute distance from `t`. -/
def argminAbs (t : ℚ) : List ℚ → ℕ
  | [] => 0
  | [_] => 0
  | x :: y :: ys =>
    let k := argminAbs t (y :: ys)
    if |x - t| ≤ |(y :: ys).getD k 0 - t| then 0 else k + 1

theorem argminAbs_cons_cons (t x y : ℚ) (ys : List ℚ) :
    argminAbs t (x :: y :: ys) =
      if |x - t| ≤ |(y :: ys).getD (argminAbs t (y :: ys)) 0 - t| then 0
      else argminAbs t (y :: ys) + 1 := rfl

theorem argminAbs_lt_length (t : ℚ) : ∀ l : List ℚ, l ≠ [] → argminAbs t l < l.length
  | [], h => absurd rfl h
  | [_], _ => Nat.zero_lt_one
  | x :: y :: ys, _ => by
    rw [argminAbs_cons_cons]
    by_cases hc : |x - t| ≤ |(y :: ys).getD (argminAbs t (y :: ys)) 0 - t|
    · rw [if_pos hc]
      simp
    · rw [if_neg hc]
      have := argminAbs_lt_length t (y :: ys) (by simp)
      simpa [List.length_cons] using Nat.succ_lt_succ this

theorem argminAbs_min (t : ℚ) :
    ∀ l : List ℚ, ∀ j < l.length,
      |l.getD (argminAbs t l) 0 - t| ≤ |l.getD j 0 - t|
  | [], j, hj => by simp at hj
  | [x], j, hj => by
    have hj0 : j = 0 := by
      simp only [List.length_singleton] at hj
      omega
    subst hj0
    simp [argminAbs]
  | x :: y :: ys, j, hj => by
    rw [argminAbs_cons_cons]
    by_cases hc : |x - t| ≤ |(y :: ys).getD (argminAbs t (y :: ys)) 0 - t|
    · rw [if_pos hc, List.getD_cons_zero]
      cases j with
      | zero => simp
      | succ m =>
        have hm : m < (y :: ys).length := by
          simpa [List.length_cons] using hj
        calc |x - t| ≤ |(y :: ys).getD (argminAbs t (y :: ys)) 0 - t| := hc
          _ ≤ |(y :: ys).getD m 0 - t| := argminAbs_min t (y :: ys) m hm
    · rw [if_neg hc, List.getD_cons_succ]
      cases j with
      | zero =>
        rw [List.getD_cons_zero]
        exact le_of_lt (lt_of_not_le hc)
      | succ m =>
        have hm : m < (y :: ys).length := by
          simpa [List.length_cons] using hj
        rw [List.getD_cons_succ]
        exact argminAbs_min t (y :: ys) m hm

theorem argminAbs_eq_zero (t : ℚ) (x : ℚ) (xs : List ℚ)
    (h : ∀ j < xs.length, |x - t| ≤ |xs.getD j 0 - t|) :
    argminAbs t (x :: xs) = 0 := by
  cases xs with
  | nil => rfl
  | cons y ys =>
    rw [argminAbs_cons_cons]
    have hk : argminAbs t (y :: ys) < (y :: ys).length :=
      argminAbs_lt_length t (y :: ys) (by simp)
    rw [if_pos (h (argminAbs t (y :: ys)) hk)]

theorem argminAbs_eq_last (t : ℚ) :
    ∀ l : List ℚ, l ≠ [] →
      (∀ j < l.length - 1, |l.getD (l.length - 1) 0 - t| < |l.getD j 0 - t|) →
      argminAbs t l = l.length - 1
  | [], h, _ => absurd rfl h
  | [x], _, _ => rfl
  | x :: y :: ys, _, h => by
    have hm : (x :: y :: ys).length - 1 = (y :: ys).length := by simp
    have hidx : (x :: y :: ys).getD ((x :: y :: ys).length - 1) 0
        = (y :: ys).getD ((y :: ys).length - 1) 0 := by
      have hk : (y :: ys).length = ys.length + 1 := by simp
      rw [hm, hk]
      simp [List.getD_cons_succ]
    have htail : ∀ j < (y :: ys).length - 1,
        |(y :: ys).getD ((y :: ys).length - 1) 0 - t| < |(y :: ys).getD j 0 - t| := by
      intro j hj
      have h1 : j + 1 < (x :: y :: ys).length - 1 := by
        rw [hm]
        simpa [List.length_cons] using Nat.succ_lt_succ hj
      have := h (j + 1) h1
      rw [hidx, List.getD_cons_succ] at this
      exact this
    have ih : argminAbs t (y :: ys) = (y :: ys).length - 1 :=
      argminAbs_eq_last t (y :: ys) (by simp) htail
    have h0 : 0 < (x :: y :: ys).length - 1 := by simp
    have hx := h 0 h0
    rw [hidx, List.getD_cons_zero] at hx
    rw [argminAbs_cons_cons, ih, if_neg (not_le.mpr hx), hm]
    have hpos : 0 < (y :: ys).length := by simp
    omega

theorem linspace_length (a b : ℚ) (n : ℕ) : (linspace a b n).length = n := by
  rw [linspace, List.length_map, List.length_range]

theorem linspace_getD (a b : ℚ) (n : ℕ) (hn : 2 ≤ n) (i : ℕ) (hi : i < n) :
    (linspace a b n).getD i 0 = a + (b - a) * (i : ℚ) / ((n : ℚ) - 1) := by
  have h1 : n ≠ 1 := by omega
  rw [linspace, List.getD_eq_getElem?_getD, List.getElem?_map, List.getElem?_range hi]
  simp [h1]

theorem linspace_getD_zero (a b : ℚ) (n : ℕ) (hn : 2 ≤ n) :
    (linspace a b n).getD 0 0 = a := by
  rw [linspace_getD a b n hn 0 (by omega)]
  simp

theorem linspace_getD_last (a b : ℚ) (n : ℕ) (hn : 2 ≤ n) :
    (linspace a b n).getD (n - 1) 0 = b := by
  rw [linspace_getD a b n hn (n - 1) (by omega)]
  have hcast : ((n - 1 : ℕ) : ℚ) = (n : ℚ) - 1 := by
    have h1 : (1 : ℕ) ≤ n := by omega
    push_cast [h1]
    ring
  have hne : (n : ℚ) - 1 ≠ 0 := by
    have h2 : (2 : ℚ) ≤ (n : ℚ) := by exact_mod_cast hn
    linarith
  rw [hcast, mul_div_assoc, div_self hne]
  ring

theorem linspace_getD_nonneg (b : ℚ) (hb : 0 ≤ b) (n : ℕ) (hn : 2 ≤ n)
    (i : ℕ) (hi : i < n) : 0 ≤ (linspace 0 b n).getD i 0 := by
  rw [linspace_getD 0 b n hn i hi]
  have h2 : (2 : ℚ) ≤ (n : ℚ) := by exact_mod_cast hn
  have hpos : (0 : ℚ) < (n : ℚ) - 1 := by linarith
  have hnum : (0 : ℚ) ≤ (b - 0) * (i : ℚ) := by
    have := Nat.cast_nonneg (α := ℚ) i
    nlinarith
  have := div_nonneg hnum (le_of_lt hpos)
  linarith

theorem linspace_getD_lt_last (b : ℚ) (hb : 0 < b) (n : ℕ) (hn : 2 ≤ n)
    (i : ℕ) (hi : i < n - 1) : (linspace 0 b n).getD i 0 < b := by
  rw [linspace_getD 0 b n hn i (by omega)]
  have h2 : (2 : ℚ) ≤ (n : ℚ) := by exact_mod_cast hn
  have hpos : (0 : ℚ) < (n : ℚ) - 1 := by linarith
  have hilt : (i : ℚ) < (n : ℚ) - 1 := by
    have hi2 : (i : ℚ) < ((n - 1 : ℕ) : ℚ) := by exact_mod_cast hi
    have hcast : ((n - 1 : ℕ) : ℚ) = (n : ℚ) - 1 := by
      have h1 : (1 : ℕ) ≤ n := by omega
      push_cast [h1]
      ring
    linarith [hcast ▸ hi2]
  have hmul : (b - 0) * (i : ℚ) / ((n : ℚ) - 1) < b := by
    rw [div_lt_iff₀ hpos]
    have := mul_lt_mul_of_pos_left hilt hb
    linarith
  linarith

/-- Evolution time grid of `jaynes_cummings_dynamics`:
`t_list = np.linspace(0, 25, 1000)`. -/
def jaynes_t_list : List ℚ := linspace 0 25 1000

/-- Evolution time grid of `wigner_2d_dynamics` and `wigner_3d_dynamics`:
`t_list = np.linspace(0, 25, 100)`. -/
def wigner_t_list : List ℚ := linspace 0 25 100

/-- Evolution time grid of `bloch_dynamics_snapshots`:
`t_list = np.linspace(0, 25, timesteps)`. -/
def bloch_t_list (timesteps : ℕ) : List ℚ := linspace 0 25 timesteps

/-- C1: the snapshot lookup `np.argmin(np.abs(t_list - t))` over the grid
`np.linspace(0, 25, n)` (wigner scripts: `n = 100`; bloch script:
`n = timesteps`) selects an index minimizing `|t_list[i] - t|`; every `t`
below the first grid time selects index 0, every `t` above the last grid
time selects the last index `n - 1`, and two requested times with the same
nearest sample select the same stored sample. -/
theorem C1_snapshot_nearest_sample (n : ℕ) (hn : 2 ≤ n) (t t' : ℚ) :
    (∀ j < n, |(linspace 0 25 n).getD (argminAbs t (linspace 0 25 n)) 0 - t|
        ≤ |(linspace 0 25 n).getD j 0 - t|)
    ∧ (t < 0 → argminAbs t (linspace 0 25 n) = 0)
    ∧ (25 < t → argminAbs t (linspace 0 25 n) = n - 1)
    ∧ (argminAbs t (linspace 0 25 n) = argminAbs t' (linspace 0 25 n) →
        (linspace 0 25 n).getD (argminAbs t (linspace 0 25 n)) 0
          = (linspace 0 25 n).getD (argminAbs t' (linspace 0 25 n)) 0) := by
  have hlen : (linspace 0 25 n).length = n := linspace_length 0 25 n
  refine ⟨?_, ?_, ?_, ?_⟩
  · intro j hj
    exact argminAbs_min t (linspace 0 25 n) j (by rw [hlen]; exact hj)
  · intro ht
    rcases hL : linspace 0 25 n with _ | ⟨x, xs⟩
    · have : (0 : ℕ) = n := by rw [← hlen, hL]; rfl
      omega
    · apply argminAbs_eq_zero
      intro j hj
      have hx : x = 0 := by
        have h0 := linspace_getD_zero 0 25 n hn
        rw [hL, List.getD_cons_zero] at h0
        exact h0
      have hxs : j + 1 < n := by
        have : (x :: xs).length = n := by rw [← hL, hlen]
        simp only [List.length_cons] at this
        omega
      have hv : 0 ≤ xs.getD j 0 := by
        have hnn := linspace_getD_nonneg 25 (by norm_num) n hn (j + 1) hxs
        rw [hL, List.getD_cons_succ] at hnn
        exact hnn
      rw [hx]
      have h1 : |0 - t| = 0 - t := abs_of_nonneg (by linarith)
      have h2 : |xs.getD j 0 - t| = xs.getD j 0 - t := abs_of_nonneg (by linarith)
      rw [h1, h2]
      linarith
  · intro ht
    have hne : linspace 0 25 n ≠ [] := by
      intro hc
      rw [hc] at hlen
      simp at hlen
      omega
    have hmain := argminAbs_eq_last t (linspace 0 25 n) hne ?_
    · rw [hmain, hlen]
    · intro j hj
      rw [hlen] at hj ⊢
      rw [linspace_getD_last 0 25 n hn]
      have hjlt : (linspace 0 25 n).getD j 0 < 25 :=
        linspace_getD_lt_last 25 (by norm_num) n hn j hj
      have h1 : |25 - t| = -(25 - t) := abs_of_neg (by linarith)
      have h2 : |(linspace 0 25 n).getD j 0 - t| = -((linspace 0 25 n).getD j 0 - t) :=
        abs_of_neg (by linarith)
      rw [h1, h2]
      linarith
  · intro h
    rw [h]

/-- Witness for C1 at the wigner grid (`n = 100`): a time below the grid
clamps to the first sample and a time above the grid clamps to the last. -/
theorem C1_snapshot_nearest_sample_witness :
    argminAbs (-1) (linspace 0 25 100) = 0
    ∧ argminAbs 26 (linspace 0 25 100) = 100 - 1 :=
  ⟨(C1_snapshot_nearest_sample 100 (by decide) (-1) 0).2.1 (by decide),
   (C1_snapshot_nearest_sample 100 (by decide) 26 0).2.2.1 (by decide)⟩

section Operators

variable {K : Type} [Field K]

/-- qutip `destroy(N)`: the truncated annihilation operator, with entries
`sqrt(j)` on the superdiagonal. The ambient square-root function `sq`
(numpy/qutip's `sqrt`, a black-box library facility for the scripts) is
passed explicitly. All operators in the scripts are real-entried, so they
are modelled over an abstract field `K`. -/
def destroyOp (sq : K → K) (N : ℕ) : Matrix (Fin N) (Fin N) K :=
  Matrix.of fun i j => if (i : ℕ) + 1 = (j : ℕ) then sq ((j : ℕ) : K) else 0

/-- qutip `tensor(A, B)`: the Kronecker product on the composite space. -/
def tensorOp {m p : ℕ} (A : Matrix (Fin m) (Fin m) K) (B : Matrix (Fin p) (Fin p) K) :
    Matrix (Fin m × Fin p) (Fin m × Fin p) K :=
  Matrix.kroneckerMap (· * ·) A B

/-- qutip `.dag()`: the conjugate transpose; every operator built by these
scripts has real entries, so it is the transpose. -/
def dagOp {m p : ℕ} (A : Matrix (Fin m × Fin p) (Fin m × Fin p) K) :
    Matrix (Fin m × Fin p) (Fin m × Fin p) K :=
  A.transpose

/-- `a = qt.tensor(qt.destroy(N), qt.qeye(2))`. -/
def aOp (sq : K → K) (N : ℕ) : Matrix (Fin N × Fin 2) (Fin N × Fin 2) K :=
  tensorOp (destroyOp sq N) 1

/-- `sm = qt.tensor(qt.qeye(N), qt.destroy(2))`. -/
def smOp (sq : K → K) (N : ℕ) : Matrix (Fin N × Fin 2) (Fin N × Fin 2) K :=
  tensorOp 1 (destroyOp sq 2)

/-- qutip `sigmaz()`: `diag(1, -1)`. -/
def sigmazOp : Matrix (Fin 2) (Fin 2) K :=
  Matrix.of fun i j => if i = j then (if (i : ℕ) = 0 then 1 else -1) else 0

/-- Hamiltonian assembled by `wigner_2d_dynamics` (and `wigner_3d_dynamics`):
`H = wc*a.dag()*a + wa*sm.dag()*sm + g*(a.dag()*sm + a*sm.dag())` with
`g = 2*np.pi*g1` and `wc = wa = 2*np.pi*1`. The function parameters
`kappa`, `gamma`, `detuning`, `n` are accepted (mirroring the Python
signature) but do not occur in the Hamiltonian expression. `npPi` is the
external constant `np.pi`. -/
def wigner_H (sq : K → K) (npPi g1 kappa gamma detuning n : K) (N : ℕ) :
    Matrix (Fin N × Fin 2) (Fin N × Fin 2) K :=
  let g := 2 * npPi * g1
  let wc := 2 * npPi * 1
  let wa := wc
  wc • (dagOp (aOp sq N) * aOp sq N) + wa • (dagOp (smOp sq N) * smOp sq N)
    + g • (dagOp (aOp sq N) * smOp sq N + aOp sq N * dagOp (smOp sq N))

/-- Hamiltonian assembled by `bloch_dynamics_snapshots`: identical shape to
the wigner scripts; `kappa`, `gamma`, `detuning`, `n` again do not occur. -/
def bloch_H (sq : K → K) (npPi g1 kappa gamma detuning n : K) (N : ℕ) :
    Matrix (Fin N × Fin 2) (Fin N × Fin 2) K :=
  let g := 2 * npPi * g1
  let wc := 2 * npPi * 1
  let wa := wc
  wc • (dagOp (aOp sq N) * aOp sq N) + wa • (dagOp (smOp sq N) * smOp sq N)
    + g • (dagOp (aOp sq N) * smOp sq N + aOp sq N * dagOp (smOp sq N))

/-- Hamiltonian assembled by `jaynes_cummings_dynamics`:
`omega_c = 2*np.pi*1 + detuning (+ 0.1*g^2 if non_linear)`,
`omega_a = 2*np.pi*1 (+ 0.1*g^2 if non_linear)`, `g = 2*np.pi*g1`,
`H = omega_c*a.dag()*a + omega_a*sm.dag()*sm + g*(a.dag()*sm + a*sm.dag())`
on the `N = 4` cavity truncation. -/
def jaynes_H (sq : K → K) (npPi g1 detuning : K) (non_linear : Bool) :
    Matrix (Fin 4 × Fin 2) (Fin 4 × Fin 2) K :=
  let g := 2 * npPi * g1
  let omega_c_base := 2 * npPi * 1
  let omega_a_base := 2 * npPi * 1
  let omega_c :=
    if non_linear then omega_c_base + detuning + (1 / 10) * g ^ 2
    else omega_c_base + detuning
  let omega_a :=
    if non_linear then omega_a_base + (1 / 10) * g ^ 2 else omega_a_base
  omega_c • (dagOp (aOp sq 4) * aOp sq 4) + omega_a • (dagOp (smOp sq 4) * smOp sq 4)
    + g • (dagOp (aOp sq 4) * smOp sq 4 + aOp sq 4 * dagOp (smOp sq 4))

/-- Hamiltonian assembled inside the loop of `power_spectrum_vs_coupling`:
`H = wc*a.dag()*a + wa*sm.dag()*sm + g*(a.dag()*sm + a*sm.dag())` where
`wc`, `wa` are caller parameters and `g = g_strength*2*np.pi`. -/
def power_H (sq : K → K) (wc wa g : K) (N : ℕ) :
    Matrix (Fin N × Fin 2) (Fin N × Fin 2) K :=
  wc • (dagOp (aOp sq N) * aOp sq N) + wa • (dagOp (smOp sq N) * smOp sq N)
    + g • (dagOp (aOp sq N) * smOp sq N + aOp sq N * dagOp (smOp sq N))

/-- Collapse operators of `wigner_2d_dynamics` / `wigner_3d_dynamics`:
`[sqrt(kappa*(1+n))*a, sqrt(kappa*n)*a.dag(), sqrt(gamma)*sm]`. -/
def wigner_c_ops (sq : K → K) (kappa gamma n : K) (N : ℕ) :
    List (Matrix (Fin N × Fin 2) (Fin N × Fin 2) K) :=
  [sq (kappa * (1 + n)) • aOp sq N,
   sq (kappa * n) • dagOp (aOp sq N),
   sq gamma • smOp sq N]

/-- Collapse operators of `bloch_dynamics_snapshots` (same three). -/
def bloch_c_ops (sq : K → K) (kappa gamma n : K) (N : ℕ) :
    List (Matrix (Fin N × Fin 2) (Fin N × Fin 2) K) :=
  [sq (kappa * (1 + n)) • aOp sq N,
   sq (kappa * n) • dagOp (aOp sq N),
   sq gamma • smOp sq N]

/-- Collapse operators of `power_spectrum_vs_coupling` (same three, with
thermal photon number `n_th`). -/
def power_c_ops (sq : K → K) (kappa gamma n_th : K) (N : ℕ) :
    List (Matrix (Fin N × Fin 2) (Fin N × Fin 2) K) :=
  [sq (kappa * (1 + n_th)) • aOp sq N,
   sq (kappa * n_th) • dagOp (aOp sq N),
   sq gamma • smOp sq N]

/-- The hard-coded dephasing rate of `jaynes_cummings_dynamics`:
`gamma_phi = 0.001`. -/
def jaynes_gamma_phi : K := 1 / 1000

/-- Collapse operators of `jaynes_cummings_dynamics`: the three
rate-parameterized operators plus the hard-coded dephasing operator
`sqrt(gamma_phi) * tensor(qeye(N), sigmaz())`. -/
def jaynes_c_ops (sq : K → K) (kappa gamma n : K) :
    List (Matrix (Fin 4 × Fin 2) (Fin 4 × Fin 2) K) :=
  [sq (kappa * (1 + n)) • aOp sq 4,
   sq (kappa * n) • dagOp (aOp sq 4),
   sq gamma • smOp sq 4,
   sq jaynes_gamma_phi • tensorOp (1 : Matrix (Fin 4) (Fin 4) K) sigmazOp]

end Operators

theorem jaynes_H_entry {K : Type} [Field K] (sq : K → K) (npPi g1 detuning : K)
    (nl : Bool) (hsq1 : sq 1 = 1) :
    jaynes_H sq npPi g1 detuning nl ((1 : Fin 4), (0 : Fin 2)) ((1 : Fin 4), (0 : Fin 2))
      = (if nl then 2 * npPi * 1 + detuning + (1 / 10) * (2 * npPi * g1) ^ 2
         else 2 * npPi * 1 + detuning) := by
  cases nl with
  | false =>
    simp [jaynes_H, Matrix.add_apply, Matrix.smul_apply, Matrix.mul_apply,
      Fintype.sum_prod_type, Fin.sum_univ_four, Fin.sum_univ_two, aOp, smOp, dagOp,
      tensorOp, destroyOp, Matrix.kroneckerMap_apply, Matrix.transpose_apply,
      Matrix.of_apply, Matrix.one_apply, hsq1,
      (show ((3 : Fin 4) : ℕ) ≠ 0 by decide)]
  | true =>
    simp [jaynes_H, Matrix.add_apply, Matrix.smul_apply, Matrix.mul_apply,
      Fintype.sum_prod_type, Fin.sum_univ_four, Fin.sum_univ_two, aOp, smOp, dagOp,
      tensorOp, destroyOp, Matrix.kroneckerMap_apply, Matrix.transpose_apply,
      Matrix.of_apply, Matrix.one_apply, hsq1,
      (show ((3 : Fin 4) : ℕ) ≠ 0 by decide)]

/-- C3 counterexample: in `wigner_2d_dynamics` the caller-supplied `detuning`
parameter never occurs in the Hamiltonian expression, so two invocations
that differ only in detuning (here 0 vs 1, with every other parameter
fixed) assemble the identical Hamiltonian operator, refuting the claim for
that script's Model Builder. -/
theorem C3_wigner_detuning_ignored_counterexample :
    wigner_H (K := ℚ) id (314159 / 100000) 1 0 0 0 0 15
      = wigner_H (K := ℚ) id (314159 / 100000) 1 0 0 1 0 15 := rfl

/-- C3 (amended): only `jaynes_cummings_dynamics` assembles a Hamiltonian
that depends on the caller-supplied detuning (distinct detunings give
distinct operators, in both the linear and nonlinear branches); the wigner
scripts and the bloch script accept a `detuning` argument but their
Hamiltonians are independent of it. -/
theorem C3_detuning_dependence {K : Type} [Field K] (sq : K → K) (npPi g1 kappa gamma n : K)
    (N : ℕ) (d d' : K) (hsq1 : sq 1 = 1) (hd : d ≠ d') :
    jaynes_H sq npPi g1 d false ≠ jaynes_H sq npPi g1 d' false
    ∧ jaynes_H sq npPi g1 d true ≠ jaynes_H sq npPi g1 d' true
    ∧ wigner_H sq npPi g1 kappa gamma d n N = wigner_H sq npPi g1 kappa gamma d' n N
    ∧ bloch_H sq npPi g1 kappa gamma d n N = bloch_H sq npPi g1 kappa gamma d' n N := by
  refine ⟨?_, ?_, rfl, rfl⟩
  · intro hEq
    have h := (Matrix.ext_iff.mpr hEq) ((1 : Fin 4), (0 : Fin 2)) ((1 : Fin 4), (0 : Fin 2))
    rw [jaynes_H_entry sq npPi g1 d false hsq1,
      jaynes_H_entry sq npPi g1 d' false hsq1] at h
    simp at h
    exact hd h
  · intro hEq
    have h := (Matrix.ext_iff.mpr hEq) ((1 : Fin 4), (0 : Fin 2)) ((1 : Fin 4), (0 : Fin 2))
    rw [jaynes_H_entry sq npPi g1 d true hsq1,
      jaynes_H_entry sq npPi g1 d' true hsq1] at h
    simp at h
    exact hd h

/-- Witness for the amended C3 at concrete inputs: the Jaynes-Cummings
Hamiltonians at detuning 0 and 1 differ. -/
theorem C3_detuning_dependence_witness :
    jaynes_H (K := ℚ) id (314159 / 100000) 1 0 false
      ≠ jaynes_H (K := ℚ) id (314159 / 100000) 1 1 false :=
  (C3_detuning_dependence (K := ℚ) id (314159 / 100000) 1 0 0 0 15 0 1 rfl (by decide)).1

/-- C2 counterexample: in `jaynes_cummings_dynamics` with `kappa = 0` and
`gamma = 0` the collapse-operator list handed to `mesolve` is NOT
all-zero-weighted: the hard-coded dephasing operator
`sqrt(0.001) * tensor(qeye(4), sigmaz())` has nonzero weight. -/
theorem C2_jaynes_dephasing_counterexample :
    ¬ (∀ C ∈ jaynes_c_ops (K := ℝ) Real.sqrt 0 0 0, C = 0) := by
  intro h
  have hmem : (Real.sqrt jaynes_gamma_phi •
      tensorOp (1 : Matrix (Fin 4) (Fin 4) ℝ) sigmazOp)
      ∈ jaynes_c_ops (K := ℝ) Real.sqrt 0 0 0 := by
    simp [jaynes_c_ops]
  have h0 := h _ hmem
  have hent := (Matrix.ext_iff.mpr h0) ((0 : Fin 4), (0 : Fin 2)) ((0 : Fin 4), (0 : Fin 2))
  simp [tensorOp, Matrix.smul_apply, Matrix.kroneckerMap_apply, Matrix.one_apply,
    sigmazOp, Matrix.of_apply, jaynes_gamma_phi] at hent

/-- C2 (amended): with `kappa = 0` and `gamma = 0` the collapse-operator
lists of the wigner scripts, the bloch script and the power-spectrum script
are all-zero (for any square root with `sqrt 0 = 0`), while in
`jaynes_cummings_dynamics` the three rate-parameterized operators are zero
but the hard-coded dephasing operator `sqrt(0.001)*tensor(qeye(4),sigmaz())`
remains in the list, so its evolution is not collapse-free. -/
theorem C2_zero_rate_collapse_ops {K : Type} [Field K] (sq : K → K) (h0 : sq 0 = 0)
    (n : K) (N : ℕ) :
    wigner_c_ops sq 0 0 n N = [0, 0, 0]
    ∧ bloch_c_ops sq 0 0 n N = [0, 0, 0]
    ∧ power_c_ops sq 0 0 n N = [0, 0, 0]
    ∧ jaynes_c_ops sq 0 0 n
        = [0, 0, 0,
           sq jaynes_gamma_phi • tensorOp (1 : Matrix (Fin 4) (Fin 4) K) sigmazOp] := by
  simp [wigner_c_ops, bloch_c_ops, power_c_ops, jaynes_c_ops, h0]

/-- Witness for the amended C2 at concrete inputs (`K = ℚ`, `sq = id`,
thermal photon number 7, truncation 15). -/
theorem C2_zero_rate_collapse_ops_witness :
    wigner_c_ops (K := ℚ) id 0 0 7 15 = [0, 0, 0] :=
  (C2_zero_rate_collapse_ops (K := ℚ) id rfl 7 15).1

/-- Modelled from the spec: "each operator-valued and explicitly
parameterized by sqrt(rate) scaling to satisfy Lindblad normalization" — a
collapse operator `C` is sqrt-rate scaled for rate `r` and base operator
`B` when `C = sqrt(r) • B`. -/
def sqrtRateScaled {K : Type} [Field K] {m p : ℕ} (sq : K → K) (r : K)
    (B C : Matrix (Fin m × Fin p) (Fin m × Fin p) K) : Prop :=
  C = sq r • B

/-- C5: every collapse operator handed to the evolver is a base operator
scaled by the square root of its rate: cavity decay `sqrt(kappa*(1+n))*a`,
thermal excitation `sqrt(kappa*n)*a.dag()`, atomic decay `sqrt(gamma)*sm`
(and, in `jaynes_cummings_dynamics`, dephasing
`sqrt(gamma_phi)*tensor(qeye(4),sigmaz())`). -/
theorem C5_collapse_sqrt_scaling {K : Type} [Field K] (sq : K → K)
    (kappa gamma n n_th : K) (N : ℕ) :
    (jaynes_c_ops sq kappa gamma n).length = 4
    ∧ sqrtRateScaled sq (kappa * (1 + n)) (aOp sq 4)
        ((jaynes_c_ops sq kappa gamma n).getD 0 0)
    ∧ sqrtRateScaled sq (kappa * n) (dagOp (aOp sq 4))
        ((jaynes_c_ops sq kappa gamma n).getD 1 0)
    ∧ sqrtRateScaled sq gamma (smOp sq 4)
        ((jaynes_c_ops sq kappa gamma n).getD 2 0)
    ∧ sqrtRateScaled sq jaynes_gamma_phi (tensorOp 1 sigmazOp)
        ((jaynes_c_ops sq kappa gamma n).getD 3 0)
    ∧ (power_c_ops sq kappa gamma n_th N).length = 3
    ∧ sqrtRateScaled sq (kappa * (1 + n_th)) (aOp sq N)
        ((power_c_ops sq kappa gamma n_th N).getD 0 0)
    ∧ sqrtRateScaled sq (kappa * n_th) (dagOp (aOp sq N))
        ((power_c_ops sq kappa gamma n_th N).getD 1 0)
    ∧ sqrtRateScaled sq gamma (smOp sq N)
        ((power_c_ops sq kappa gamma n_th N).getD 2 0) :=
  ⟨rfl, rfl, rfl, rfl, rfl, rfl, rfl, rfl, rfl⟩

/-- Result of `plt.subplots(nrows, ncols)` under default squeeze semantics:
with exactly one panel the plotting library returns a bare axes object,
which is not subscriptable; otherwise a one-dimensional array of axes,
modelled by the list of panel slots. -/
inductive PyAxes
  | single : PyAxes
  | row : List ℕ → PyAxes
  deriving DecidableEq

/-- `plt.subplots(nrows, ncols)`. -/
def subplots (nrows ncols : ℕ) : PyAxes :=
  if nrows * ncols = 1 then .single else .row (List.range (nrows * ncols))

/-- Python indexing `axes[i]`: indexing a bare axes object raises
`TypeError` (modelled `none`); an axes array returns its `i`-th entry. -/
def pyIndex : PyAxes → ℕ → Option ℕ
  | .single, _ => none
  | .row axs, i => axs[i]?

/-- One rendered panel: the subplot slot it occupies, the requested time
shown in its title (`t = {t}`), and the index of the stored evolution
sample it draws (`idx = np.argmin(np.abs(t_list - t))`). -/
structure Panel where
  slot : ℕ
  time : ℚ
  stateIdx : ℕ
  deriving DecidableEq

/-- The rendering loop `for i, t in enumerate(times)` common to the
snapshot scripts: panel `i` draws, on axes slot `axes[i]`, the state at the
nearest evolution-grid sample to `t`; the loop aborts (`none`) if the axes
value cannot be indexed. -/
def renderLoop (axes : PyAxes) (tl : List ℚ) : ℕ → List ℚ → Option (List Panel)
  | _, [] => some []
  | i, t :: ts =>
    match pyIndex axes i with
    | none => none
    | some slot =>
      match renderLoop axes tl (i + 1) ts with
      | none => none
      | some ps => some (⟨slot, t, argminAbs t tl⟩ :: ps)

/-- Axes produced by `wigner_2d_dynamics`, including its normalization
`if num_plots == 1: axes = [axes]`. -/
def wigner_2d_axes (num : ℕ) : PyAxes :=
  let axes := subplots num 1
  if num = 1 then
    match axes with
    | .single => .row [0]
    | .row axs => .row axs
  else axes

/-- Rendering stage of `wigner_2d_dynamics`. -/
def wigner_2d_render (times : List ℚ) : Option (List Panel) :=
  renderLoop (wigner_2d_axes times.length) wigner_t_list 0 times

/-- Axes produced by `wigner_3d_dynamics`, including the same
`if num_plots == 1: axes = [axes]` normalization. -/
def wigner_3d_axes (num : ℕ) : PyAxes :=
  let axes := subplots num 1
  if num = 1 then
    match axes with
    | .single => .row [0]
    | .row axs => .row axs
  else axes

/-- Rendering stage of `wigner_3d_dynamics`. -/
def wigner_3d_render (times : List ℚ) : Option (List Panel) :=
  renderLoop (wigner_3d_axes times.length) wigner_t_list 0 times

/-- Axes produced by `bloch_dynamics_snapshots`:
`plt.subplots(1, len(snapshot_times))` with NO single-axes normalization. -/
def bloch_axes (num : ℕ) : PyAxes := subplots 1 num

/-- Rendering stage of `bloch_dynamics_snapshots`. -/
def bloch_render (timesteps : ℕ) (snapshot_times : List ℚ) : Option (List Panel) :=
  renderLoop (bloch_axes snapshot_times.length) (bloch_t_list timesteps) 0 snapshot_times

theorem renderLoop_row (tl : List ℚ) (n : ℕ) :
    ∀ (ts : List ℚ) (i : ℕ), i + ts.length ≤ n →
      ∃ ps, renderLoop (PyAxes.row (List.range n)) tl i ts = some ps
        ∧ ps.map Panel.time = ts ∧ ps.length = ts.length
  | [], i, _ => ⟨[], rfl, rfl, rfl⟩
  | t :: ts, i, h => by
    have hi : i < n := by
      simp only [List.length_cons] at h
      omega
    obtain ⟨ps, hps, hmap, hlen⟩ := renderLoop_row tl n ts (i + 1) (by
      simp only [List.length_cons] at h
      omega)
    refine ⟨⟨i, t, argminAbs t tl⟩ :: ps, ?_, by simp [hmap], by simp [hlen]⟩
    simp [renderLoop, pyIndex, List.getElem?_range hi, hps]

theorem wigner_2d_axes_row (num : ℕ) (h : 1 ≤ num) :
    wigner_2d_axes num = PyAxes.row (List.range num) := by
  by_cases h1 : num = 1
  · subst h1
    rfl
  · simp [wigner_2d_axes, subplots, h1, Nat.mul_one]

theorem wigner_3d_axes_row (num : ℕ) (h : 1 ≤ num) :
    wigner_3d_axes num = PyAxes.row (List.range num) := by
  by_cases h1 : num = 1
  · subst h1
    rfl
  · simp [wigner_3d_axes, subplots, h1, Nat.mul_one]

theorem bloch_axes_row (num : ℕ) (h : 2 ≤ num) :
    bloch_axes num = PyAxes.row (List.range num) := by
  have h1 : ¬ num = 1 := by omega
  simp [bloch_axes, subplots, h1, Nat.one_mul]

/-- C4 counterexample: `bloch_dynamics_snapshots` with a single requested
snapshot time renders no panel at all: `plt.subplots(1, 1)` returns a bare
axes object, `axes[i]` raises `TypeError`, and the run aborts instead of
producing one panel. -/
theorem C4_bloch_single_time_counterexample :
    bloch_render 100 [0] = none ∧ (bloch_render 100 [0]).map List.length ≠ some 1 := by
  decide

/-- C4 (amended): for every non-empty list of `N` requested snapshot times
the wigner 2D and 3D renderers produce exactly `N` panels whose `i`-th
panel shows the `i`-th requested time; `bloch_dynamics_snapshots` does so
whenever `N ≥ 2`, but for `N = 1` it aborts with a `TypeError` (the single
axes object is never normalized into a list) and renders no panel. -/
theorem C4_panels_match_requested_times (times : List ℚ) (timesteps : ℕ)
    (hne : times ≠ []) :
    ((wigner_2d_render times).map List.length = some times.length
      ∧ (wigner_2d_render times).map (List.map Panel.time) = some times)
    ∧ ((wigner_3d_render times).map List.length = some times.length
      ∧ (wigner_3d_render times).map (List.map Panel.time) = some times)
    ∧ (2 ≤ times.length →
        (bloch_render timesteps times).map List.length = some times.length
        ∧ (bloch_render timesteps times).map (List.map Panel.time) = some times)
    ∧ (times.length = 1 → bloch_render timesteps times = none) := by
  have hpos : 1 ≤ times.length := by
    cases times with
    | nil => exact absurd rfl hne
    | cons a l => simp
  refine ⟨?_, ?_, ?_, ?_⟩
  · obtain ⟨ps, hps, hmap, hlen⟩ :=
      renderLoop_row wigner_t_list times.length times 0 (by omega)
    rw [wigner_2d_render, wigner_2d_axes_row times.length hpos, hps]
    exact ⟨by simp [hlen], by simp [hmap]⟩
  · obtain ⟨ps, hps, hmap, hlen⟩ :=
      renderLoop_row wigner_t_list times.length times 0 (by omega)
    rw [wigner_3d_render, wigner_3d_axes_row times.length hpos, hps]
    exact ⟨by simp [hlen], by simp [hmap]⟩
  · intro h2
    obtain ⟨ps, hps, hmap, hlen⟩ :=
      renderLoop_row (bloch_t_list timesteps) times.length times 0 (by omega)
    rw [bloch_render, bloch_axes_row times.length h2, hps]
    exact ⟨by simp [hlen], by simp [hmap]⟩
  · intro h1
    obtain ⟨t, ht⟩ := List.length_eq_one.mp h1
    subst ht
    rfl

/-- Witness for the amended C4 at the concrete request `[0, 5]`. -/
theorem C4_panels_match_requested_times_witness :
    (wigner_2d_render [0, 5]).map List.length = some 2
    ∧ (bloch_render 100 [0, 5]).map (List.map Panel.time) = some [0, 5] :=
  ⟨(C4_panels_match_requested_times [0, 5] 100 (by decide)).1.1,
   ((C4_panels_match_requested_times [0, 5] 100 (by decide)).2.2.1 (by decide)).2⟩

/-- C10: for a single requested time both wigner renderers normalize the
bare axes object into a one-element list, so indexing is well-defined and
exactly one panel is rendered, showing that time at its nearest stored
sample. -/
theorem C10_single_time_normalized_panel (t : ℚ) :
    wigner_2d_axes 1 = PyAxes.row [0]
    ∧ wigner_3d_axes 1 = PyAxes.row [0]
    ∧ wigner_2d_render [t] = some [⟨0, t, argminAbs t wigner_t_list⟩]
    ∧ wigner_3d_render [t] = some [⟨0, t, argminAbs t wigner_t_list⟩] :=
  ⟨rfl, rfl, rfl, rfl⟩

/-- qutip `basis(N, k)`: the `k`-th computational basis ket. -/
def basisV (K : Type) [Field K] (N k : ℕ) : Fin N → K :=
  fun i => if (i : ℕ) = k then 1 else 0

/-- qutip `tensor` of two kets. -/
def tensorV {K : Type} [Field K] {m p : ℕ} (u : Fin m → K) (v : Fin p → K) :
    Fin m × Fin p → K :=
  fun x => u x.1 * v x.2

/-- Initial state of `jaynes_cummings_dynamics`:
`psi0 = qt.tensor(qt.basis(4, 0), qt.basis(2, 1))`. -/
def jaynes_psi0 (K : Type) [Field K] : Fin 4 × Fin 2 → K :=
  tensorV (basisV K 4 0) (basisV K 2 1)

/-- Initial state of `wigner_2d_dynamics` / `wigner_3d_dynamics`:
`psi0 = qt.tensor(qt.basis(N, 0), qt.basis(2, 1))`. -/
def wigner_psi0 (K : Type) [Field K] (N : ℕ) : Fin N × Fin 2 → K :=
  tensorV (basisV K N 0) (basisV K 2 1)

/-- Initial state of `bloch_dynamics_snapshots`: cavity vacuum, atom
excited. -/
def bloch_psi0 (K : Type) [Field K] (N : ℕ) : Fin N × Fin 2 → K :=
  tensorV (basisV K N 0) (basisV K 2 1)

/-- The canonical fixed state named by the claim: cavity vacuum tensored
with the atom's excited basis state. -/
def groundExcited (K : Type) [Field K] (N : ℕ) : Fin N × Fin 2 → K :=
  fun x => if (x.1 : ℕ) = 0 ∧ (x.2 : ℕ) = 1 then 1 else 0

/-- C9 counterexample: the evolution grid of `bloch_dynamics_snapshots` IS
caller-adjustable through `timesteps`, and with `timesteps = 1` it
degenerates to the single sample `[0]`, not a grid spanning `[0, 25]`;
different `timesteps` values give different grids. -/
theorem C9_bloch_grid_adjustable_counterexample :
    bloch_t_list 1 = [0] ∧ ¬ (25 : ℚ) ∈ bloch_t_list 1
    ∧ bloch_t_list 2 ≠ bloch_t_list 3 := by
  have h1 : bloch_t_list 1 = [0] := by
    rw [bloch_t_list, linspace, (show List.range 1 = [0] from rfl)]
    simp
  refine ⟨h1, ?_, ?_⟩
  · rw [h1]
    norm_num
  · intro h
    have hlen := congrArg List.length h
    simp only [bloch_t_list, linspace_length] at hlen
    omega

/-- C9 (amended): every evolving script hands the solver the fixed initial
state `basis(N,0) ⊗ basis(2,1)` (independent of all other parameters), and
the [0, 25] endpoints of the time grids are hard-coded; jaynes uses 1000
samples and wigner 100, while bloch's sample count is the caller-chosen
`timesteps`, spanning [0, 25] whenever `timesteps ≥ 2`. -/
theorem C9_fixed_initial_state_and_grid (K : Type) [Field K] (N timesteps : ℕ)
    (ht : 2 ≤ timesteps) :
    jaynes_psi0 K = groundExcited K 4
    ∧ wigner_psi0 K N = groundExcited K N
    ∧ bloch_psi0 K N = groundExcited K N
    ∧ jaynes_t_list.length = 1000
    ∧ jaynes_t_list.getD 0 0 = 0
    ∧ jaynes_t_list.getD 999 0 = 25
    ∧ wigner_t_list.length = 100
    ∧ wigner_t_list.getD 0 0 = 0
    ∧ wigner_t_list.getD 99 0 = 25
    ∧ (bloch_t_list timesteps).length = timesteps
    ∧ (bloch_t_list timesteps).getD 0 0 = 0
    ∧ (bloch_t_list timesteps).getD (timesteps - 1) 0 = 25 := by
  refine ⟨?_, ?_, ?_, linspace_length 0 25 1000,
    linspace_getD_zero 0 25 1000 (by norm_num),
    linspace_getD_last 0 25 1000 (by norm_num),
    linspace_length 0 25 100,
    linspace_getD_zero 0 25 100 (by norm_num),
    linspace_getD_last 0 25 100 (by norm_num),
    linspace_length 0 25 timesteps,
    linspace_getD_zero 0 25 timesteps ht,
    linspace_getD_last 0 25 timesteps ht⟩
  · funext x
    by_cases h1 : (x.1 : ℕ) = 0 <;> by_cases h2 : (x.2 : ℕ) = 1 <;>
      simp [jaynes_psi0, tensorV, basisV, groundExcited, h1, h2]
  · funext x
    by_cases h1 : (x.1 : ℕ) = 0 <;> by_cases h2 : (x.2 : ℕ) = 1 <;>
      simp [wigner_psi0, tensorV, basisV, groundExcited, h1, h2]
  · funext x
    by_cases h1 : (x.1 : ℕ) = 0 <;> by_cases h2 : (x.2 : ℕ) = 1 <;>
      simp [bloch_psi0, tensorV, basisV, groundExcited, h1, h2]

/-- Witness for the amended C9 at concrete inputs (`K = ℚ`, `N = 15`,
`timesteps = 5`). -/
theorem C9_fixed_initial_state_and_grid_witness :
    jaynes_psi0 ℚ = groundExcited ℚ 4 ∧ (bloch_t_list 5).getD 4 0 = 25 :=
  ⟨(C9_fixed_initial_state_and_grid ℚ 15 5 (by decide)).1,
   (C9_fixed_initial_state_and_grid ℚ 15 5 (by decide)).2.2.2.2.2.2.2.2.2.2.2⟩

/-- Interface of the external open-quantum-systems library as consumed by
the scripts, over scalar field `K` and composite index type `ι`:
`mesolve` with expectation operators, `correlation_2op_1t`,
`spectrum_correlation_fft` and the direct `spectrum` solver. The scripts
treat these as black boxes; any fixed interpretation may be supplied. -/
structure QtLib (K : Type) (ι : Type) where
  mesolveExpect : Matrix ι ι K → (ι → K) → List ℚ → List (Matrix ι ι K) →
    List (Matrix ι ι K) → List (List K)
  correlation_2op_1t : Matrix ι ι K → List ℚ → List (Matrix ι ι K) →
    Matrix ι ι K → Matrix ι ι K → List K
  spectrum_correlation_fft : List ℚ → List K → List K × List K
  spectrum : Matrix ι ι K → List K → List (Matrix ι ι K) →
    Matrix ι ι K → Matrix ι ι K → List K

/-- The numeric arrays derived by `jaynes_cummings_dynamics`: the two
expectation-value sequences, the FFT spectrum pair, and the direct
spectrum. `rng` is an ambient randomness source, made explicit so that its
non-use is provable: the script never consults any random generator. -/
def jaynes_run {K : Type} [Field K] (lib : QtLib K (Fin 4 × Fin 2)) (rng : ℕ → K)
    (sq : K → K) (npPi g1 kappa gamma detuning n : K) (non_linear : Bool) :
    List (List K) × (List K × List K) × List K :=
  let H := jaynes_H sq npPi g1 detuning non_linear
  let c_ops := jaynes_c_ops sq kappa gamma n
  let psi0 := jaynes_psi0 K
  let expectRes := lib.mesolveExpect H psi0 jaynes_t_list c_ops
    [dagOp (aOp sq 4) * aOp sq 4, dagOp (smOp sq 4) * smOp sq 4]
  let tlist := linspace 0 100 5000
  let corr := lib.correlation_2op_1t H tlist c_ops (dagOp (aOp sq 4)) (aOp sq 4)
  let fft := lib.spectrum_correlation_fft tlist corr
  let wlist2 := (linspace (1 / 4) (7 / 4) 200).map fun q => (q : K) * (2 * npPi)
  let spec2 := lib.spectrum H wlist2 c_ops (dagOp (aOp sq 4)) (aOp sq 4)
  (expectRes, fft, spec2)

/-- The numeric arrays derived by `power_spectrum_vs_coupling`: one FFT
spectrum pair per coupling strength in `g_values`. -/
def power_run {K : Type} [Field K] (N : ℕ) (lib : QtLib K (Fin N × Fin 2))
    (rng : ℕ → K) (sq : K → K) (npPi wc wa kappa gamma n_th : K)
    (g_values : List K) : List (List K × List K) :=
  let tlist := linspace 0 100 5000
  g_values.map fun g_strength =>
    let g := g_strength * 2 * npPi
    let H := power_H sq wc wa g N
    let c_ops := power_c_ops sq kappa gamma n_th N
    let corr := lib.correlation_2op_1t H tlist c_ops (dagOp (aOp sq N)) (aOp sq N)
    lib.spectrum_correlation_fft tlist corr

/-- qutip `sigmax()`: `[[0, 1], [1, 0]]`. -/
def sigmaxOp {K : Type} [Field K] : Matrix (Fin 2) (Fin 2) K :=
  Matrix.of fun i j => if i = j then 0 else 1

/-- qutip `sigmay()`: `[[0, -1j], [1j, 0]]`; `imU` is the ambient imaginary
unit (the scripts' scalars are really complex floats). -/
def sigmayOp {K : Type} [Field K] (imU : K) : Matrix (Fin 2) (Fin 2) K :=
  Matrix.of fun i j =>
    if (i : ℕ) = 0 ∧ (j : ℕ) = 1 then -imU
    else if (i : ℕ) = 1 ∧ (j : ℕ) = 0 then imU else 0

/-- Interface of the external library as consumed by the snapshot scripts:
state-trajectory `mesolve` (with an expectation-operator list, passed `[]`
by these scripts), partial trace over either subsystem, phase-space Wigner
evaluation, and expectation values of atomic operators. Black boxes to the
scripts; any fixed interpretation may be supplied. -/
structure QtLibStates (K : Type) (N : ℕ) where
  mesolveStates : Matrix (Fin N × Fin 2) (Fin N × Fin 2) K → (Fin N × Fin 2 → K) →
    List ℚ → List (Matrix (Fin N × Fin 2) (Fin N × Fin 2) K) →
    List (Matrix (Fin N × Fin 2) (Fin N × Fin 2) K) →
    List (Matrix (Fin N × Fin 2) (Fin N × Fin 2) K)
  ptrace0 : Matrix (Fin N × Fin 2) (Fin N × Fin 2) K → Matrix (Fin N) (Fin N) K
  ptrace1 : Matrix (Fin N × Fin 2) (Fin N × Fin 2) K → Matrix (Fin 2) (Fin 2) K
  wigner : Matrix (Fin N) (Fin N) K → List ℚ → List ℚ → List (List K)
  expectVal : Matrix (Fin 2) (Fin 2) K → Matrix (Fin 2) (Fin 2) K → K

/-- Phase-space grid of `wigner_2d_dynamics`: `np.linspace(-5, 5, 200)`. -/
def wigner_2d_xvec : List ℚ := linspace (-5) 5 200

/-- Phase-space grid of `wigner_3d_dynamics`: `np.linspace(-5, 5, 50)`. -/
def wigner_3d_xvec : List ℚ := linspace (-5) 5 50

/-- The numeric arrays derived by `wigner_2d_dynamics`: one Wigner surface
`qt.wigner(result.states[idx].ptrace(0), xvec, xvec)` per requested time,
where `idx` is the nearest-sample lookup (always in range by
`argminAbs_lt_length`, so `getD`'s default is never taken). `rng` is the
ambient randomness source, never consulted. -/
def wigner_2d_run {K : Type} [Field K] (N : ℕ) (lib : QtLibStates K N)
    (rng : ℕ → K) (sq : K → K) (npPi g1 kappa gamma detuning n : K)
    (times : List ℚ) : List (List (List K)) :=
  let H := wigner_H sq npPi g1 kappa gamma detuning n N
  let c_ops := wigner_c_ops sq kappa gamma n N
  let states := lib.mesolveStates H (wigner_psi0 K N) wigner_t_list c_ops []
  times.map fun t =>
    let idx := argminAbs t wigner_t_list
    let rho_cavity := lib.ptrace0 (states.getD idx 0)
    lib.wigner rho_cavity wigner_2d_xvec wigner_2d_xvec

/-- The numeric arrays derived by `wigner_3d_dynamics`: as `wigner_2d_run`
but on the coarser 50-point phase-space grid. -/
def wigner_3d_run {K : Type} [Field K] (N : ℕ) (lib : QtLibStates K N)
    (rng : ℕ → K) (sq : K → K) (npPi g1 kappa gamma detuning n : K)
    (times : List ℚ) : List (List (List K)) :=
  let H := wigner_H sq npPi g1 kappa gamma detuning n N
  let c_ops := wigner_c_ops sq kappa gamma n N
  let states := lib.mesolveStates H (wigner_psi0 K N) wigner_t_list c_ops []
  times.map fun t =>
    let idx := argminAbs t wigner_t_list
    let rho_cavity := lib.ptrace0 (states.getD idx 0)
    lib.wigner rho_cavity wigner_3d_xvec wigner_3d_xvec

/-- The numeric arrays derived by `bloch_dynamics_snapshots`: the Bloch
vector `(expect(sigmax, rho_atom), expect(sigmay, rho_atom),
expect(sigmaz, rho_atom))` with `rho_atom = state.ptrace(1)`, for every
state of the trajectory. -/
def bloch_run {K : Type} [Field K] (N : ℕ) (lib : QtLibStates K N)
    (rng : ℕ → K) (sq : K → K) (npPi imU g1 kappa gamma detuning n : K)
    (timesteps : ℕ) : List (K × K × K) :=
  let H := bloch_H sq npPi g1 kappa gamma detuning n N
  let c_ops := bloch_c_ops sq kappa gamma n N
  let states := lib.mesolveStates H (bloch_psi0 K N) (bloch_t_list timesteps) c_ops []
  states.map fun state =>
    let rho_atom := lib.ptrace1 state
    (lib.expectVal sigmaxOp rho_atom, lib.expectVal (sigmayOp imU) rho_atom,
      lib.expectVal sigmazOp rho_atom)

/-- C6: for a fixed (deterministic) external library interpretation, the
numeric arrays derived by every script function — jaynes's expectation
sequences and spectra, power's per-coupling spectra, both wigner scripts'
Wigner surfaces, and bloch's Bloch vectors — are a function of the
parameters alone: two runs with identical parameters and arbitrary ambient
randomness sources produce identical arrays, so the scripts contain no
hidden randomness. -/
theorem C6_deterministic_arrays {K : Type} [Field K]
    (lib : QtLib K (Fin 4 × Fin 2)) (N : ℕ) (plib : QtLib K (Fin N × Fin 2))
    (slib : QtLibStates K N) (rng rng' : ℕ → K) (sq : K → K)
    (npPi imU g1 kappa gamma detuning n wc wa n_th : K) (nl : Bool)
    (g_values : List K) (times : List ℚ) (timesteps : ℕ) :
    jaynes_run lib rng sq npPi g1 kappa gamma detuning n nl
      = jaynes_run lib rng' sq npPi g1 kappa gamma detuning n nl
    ∧ power_run N plib rng sq npPi wc wa kappa gamma n_th g_values
      = power_run N plib rng' sq npPi wc wa kappa gamma n_th g_values
    ∧ wigner_2d_run N slib rng sq npPi g1 kappa gamma detuning n times
      = wigner_2d_run N slib rng' sq npPi g1 kappa gamma detuning n times
    ∧ wigner_3d_run N slib rng sq npPi g1 kappa gamma detuning n times
      = wigner_3d_run N slib rng' sq npPi g1 kappa gamma detuning n times
    ∧ bloch_run N slib rng sq npPi imU g1 kappa gamma detuning n timesteps
      = bloch_run N slib rng' sq npPi imU g1 kappa gamma detuning n timesteps :=
  ⟨rfl, rfl, rfl, rfl, rfl⟩

/-- Scalar weights (`np.sqrt` of the rates) of the collapse operators of
`jaynes_cummings_dynamics`, at the granularity of numpy scalar semantics:
`sqN` models `np.sqrt` on scalars, which on negative input emits a warning
and returns NaN — a non-finite value, modelled `none` — instead of
raising. -/
def jaynes_c_ops_weights (sqN : ℚ → Option ℚ) (kappa gamma n : ℚ) : List (Option ℚ) :=
  [sqN (kappa * (1 + n)), sqN (kappa * n), sqN gamma, sqN (1 / 1000)]

/-- Scalar weights of the collapse operators of
`power_spectrum_vs_coupling`. -/
def power_c_ops_weights (sqN : ℚ → Option ℚ) (kappa gamma n_th : ℚ) : List (Option ℚ) :=
  [sqN (kappa * (1 + n_th)), sqN (kappa * n_th), sqN gamma]

/-- The weight list handed to the downstream solver by
`jaynes_cummings_dynamics` (`qt.mesolve(H, psi0, t_list, c_ops, ...)`): the
constructed list is passed through with no validation or guard. -/
def jaynes_solver_c_ops_weights (sqN : ℚ → Option ℚ) (kappa gamma n : ℚ) :
    List (Option ℚ) :=
  jaynes_c_ops_weights sqN kappa gamma n

/-- The weight list handed to `correlation_2op_1t` by
`power_spectrum_vs_coupling`: passed through with no guard. -/
def power_solver_c_ops_weights (sqN : ℚ → Option ℚ) (kappa gamma n_th : ℚ) :
    List (Option ℚ) :=
  power_c_ops_weights sqN kappa gamma n_th

/-- C7: with a negative decay rate (`kappa < 0`, given a non-negative
thermal photon number, or `gamma < 0`) the Model Builder raises no error of
its own — collapse-operator construction completes with its full operator
count — but some operator carries a non-finite (`none`, i.e. NaN) weight,
and the malformed list is passed to the downstream solver unchanged. -/
theorem C7_negative_rate_unguarded (sqN : ℚ → Option ℚ)
    (hneg : ∀ x : ℚ, x < 0 → sqN x = none) (kappa gamma n n_th : ℚ)
    (h : (kappa < 0 ∧ 0 ≤ n ∧ 0 ≤ n_th) ∨ gamma < 0) :
    (jaynes_c_ops_weights sqN kappa gamma n).length = 4
    ∧ (power_c_ops_weights sqN kappa gamma n_th).length = 3
    ∧ none ∈ jaynes_solver_c_ops_weights sqN kappa gamma n
    ∧ none ∈ power_solver_c_ops_weights sqN kappa gamma n_th
    ∧ jaynes_solver_c_ops_weights sqN kappa gamma n
        = jaynes_c_ops_weights sqN kappa gamma n
    ∧ power_solver_c_ops_weights sqN kappa gamma n_th
        = power_c_ops_weights sqN kappa gamma n_th := by
  refine ⟨rfl, rfl, ?_, ?_, rfl, rfl⟩
  · cases h with
    | inl hk =>
      obtain ⟨hk, hn, _⟩ := hk
      have hrate : kappa * (1 + n) < 0 := mul_neg_of_neg_of_pos hk (by linarith)
      simp [jaynes_solver_c_ops_weights, jaynes_c_ops_weights, hneg _ hrate]
    | inr hg =>
      simp [jaynes_solver_c_ops_weights, jaynes_c_ops_weights, hneg _ hg]
  · cases h with
    | inl hk =>
      obtain ⟨hk, _, hn⟩ := hk
      have hrate : kappa * (1 + n_th) < 0 := mul_neg_of_neg_of_pos hk (by linarith)
      simp [power_solver_c_ops_weights, power_c_ops_weights, hneg _ hrate]
    | inr hg =>
      simp [power_solver_c_ops_weights, power_c_ops_weights, hneg _ hg]

/-- Witness for C7 at concrete inputs: `kappa = -1` yields a non-finite
weight in the solver-bound list. -/
theorem C7_negative_rate_unguarded_witness :
    none ∈ jaynes_solver_c_ops_weights
      (fun x => if x < 0 then none else some 0) (-1) 0 0 :=
  (C7_negative_rate_unguarded (fun x => if x < 0 then none else some 0)
    (fun x hx => if_pos hx) (-1) 0 0 0
    (Or.inl ⟨by decide, by decide, by decide⟩)).2.2.1

/-- Externally visible plotting effects a script can perform. `writeFile`
is the effect none of the scripts ever performs. -/
inductive PlotEffect
  | newFigure
  | linePlot
  | contourPlot
  | surfacePlot
  | colorbarAdd
  | blochDraw
  | showWindow
  | writeFile
  deriving DecidableEq

/-- Effect trace of `jaynes_cummings_dynamics`: two figures, each with two
line plots, each shown on screen. -/
def jaynes_effects : List PlotEffect :=
  [.newFigure, .linePlot, .linePlot, .showWindow,
   .newFigure, .linePlot, .linePlot, .showWindow]

/-- Effect trace of `wigner_2d_dynamics`: one figure, a contour plot and a
colorbar per requested time, one on-screen show. -/
def wigner_2d_effects (times : List ℚ) : List PlotEffect :=
  PlotEffect.newFigure ::
    ((times.map fun _ => [PlotEffect.contourPlot, PlotEffect.colorbarAdd]).flatten
      ++ [PlotEffect.showWindow])

/-- Effect trace of `wigner_3d_dynamics`: one figure, a surface plot and a
colorbar per requested time, one on-screen show. -/
def wigner_3d_effects (times : List ℚ) : List PlotEffect :=
  PlotEffect.newFigure ::
    ((times.map fun _ => [PlotEffect.surfacePlot, PlotEffect.colorbarAdd]).flatten
      ++ [PlotEffect.showWindow])

/-- Effect trace of `bloch_dynamics_snapshots`: one figure, one Bloch
sphere drawn per snapshot time, one on-screen show. -/
def bloch_effects (snapshot_times : List ℚ) : List PlotEffect :=
  PlotEffect.newFigure ::
    ((snapshot_times.map fun _ => [PlotEffect.blochDraw]).flatten
      ++ [PlotEffect.showWindow])

/-- Effect trace of `power_spectrum_vs_coupling`: one figure, one line plot
per coupling strength, one on-screen show. -/
def power_effects (numG : ℕ) : List PlotEffect :=
  PlotEffect.newFigure ::
    (((List.range numG).map fun _ => PlotEffect.linePlot) ++ [PlotEffect.showWindow])

/-- A completed script invocation: the Python return value (every script
body ends without a `return` statement, so Python returns `None`) and the
trace of externally visible effects. -/
structure ScriptRun where
  retval : Option (List ℚ)
  effects : List PlotEffect

/-- Observable behavior of `jaynes_cummings_dynamics`. -/
def jaynes_script : ScriptRun := ⟨none, jaynes_effects⟩

/-- Observable behavior of `wigner_2d_dynamics`. -/
def wigner_2d_script (times : List ℚ) : ScriptRun := ⟨none, wigner_2d_effects times⟩

/-- Observable behavior of `wigner_3d_dynamics`. -/
def wigner_3d_script (times : List ℚ) : ScriptRun := ⟨none, wigner_3d_effects times⟩

/-- Observable behavior of `bloch_dynamics_snapshots`. -/
def bloch_script (snapshot_times : List ℚ) : ScriptRun := ⟨none, bloch_effects snapshot_times⟩

/-- Observable behavior of `power_spectrum_vs_coupling`. -/
def power_script (numG : ℕ) : ScriptRun := ⟨none, power_effects numG⟩

/-- C8: every public script function returns no structured data (`None`)
on every completed invocation, and its effect trace contains only
transient on-screen rendering — no file-writing effect ever occurs. -/
theorem C8_no_return_value_no_files (times snap : List ℚ) (numG : ℕ) :
    jaynes_script.retval = none
    ∧ PlotEffect.writeFile ∉ jaynes_script.effects
    ∧ (wigner_2d_script times).retval = none
    ∧ PlotEffect.writeFile ∉ (wigner_2d_script times).effects
    ∧ (wigner_3d_script times).retval = none
    ∧ PlotEffect.writeFile ∉ (wigner_3d_script times).effects
    ∧ (bloch_script snap).retval = none
    ∧ PlotEffect.writeFile ∉ (bloch_script snap).effects
    ∧ (power_script numG).retval = none
    ∧ PlotEffect.writeFile ∉ (power_script numG).effects := by
  refine ⟨rfl, by decide, rfl, ?_, rfl, ?_, rfl, ?_, rfl, ?_⟩
  · simp [wigner_2d_script, wigner_2d_effects, List.mem_flatten, List.mem_map]
  · simp [wigner_3d_script, wigner_3d_effects, List.mem_flatten, List.mem_map]
  · simp [bloch_script, bloch_effects, List.mem_flatten, List.mem_map]
  · simp [power_script, power_effects, List.mem_map]
